import Mathlib

/-!
Verification of the libnetwork sandbox specification.

The repository file `sandbox/sandbox.go` declares the capability interfaces
`Sandbox`, `IfaceOptionSetter`, `Info` and `Interface`.  The behaviour behind
those interfaces is reconstructed here from the specification, as an
executable shallow embedding: namespaces are explicit records of network
devices and default routes, a sandbox is a record holding its key, its
tracked interfaces, its gateways, its static routes, its lifecycle state and
its namespace, and every operation is a pure state-passing function that also
returns an optional error.  Fallible kernel calls are represented by an
explicit fault oracle, so every interleaving of sub-step failures is a
concrete input.
-/

/-- An IP address, kept abstract as a string token. -/
abbrev IP := String

/-- A CIDR-qualified network address (`net.IPNet`). -/
structure IPNet where
  ip : IP
  maskBits : Nat
deriving DecidableEq, Repr

/-- Modelled from the spec (section 7): the error kinds of the sandbox engine. -/
inductive Err
  | notFound
  | alreadyExists
  | inUse
  | invalidState
  | nameExhausted
  | underlying (msg : String)
  | combined (msgs : List String)
deriving DecidableEq, Repr

/-- A static route (`types.StaticRoute`): destination network, optional
next-hop gateway, optional interface binding. -/
structure StaticRoute where
  destination : IPNet
  nextHop : Option IP
  ifaceHint : Option Nat
deriving DecidableEq, Repr

/-- Modelled from the spec: routes are keyed by destination plus gateway
to prevent duplicates. -/
def routeKey (r : StaticRoute) : IPNet × Option IP :=
  (r.destination, r.nextHop)

/-- Address family of a route. -/
inductive Fam
  | v4
  | v6
deriving DecidableEq, Repr

/-- A network device as it exists inside some namespace. -/
structure NetDev where
  name : String
  addrV4 : Option IPNet
  addrV6 : Option IPNet
  devRoutes : List IPNet
deriving DecidableEq, Repr

/-- A network namespace: its devices and its default routes
(family, gateway). -/
structure Ns where
  devs : List NetDev
  defRoutes : List (Fam × IP)
deriving DecidableEq, Repr

/-- Modelled from the spec (section 4.3): the sandbox lifecycle states. -/
inductive SbState
  | created
  | active
  | destroyed
deriving DecidableEq, Repr

/-- The record tracked for an interface added to a sandbox, mirroring the
`Interface` capability of `sandbox.go` (SrcName, DstName, Address,
AddressIPv6, Routes). -/
structure Iface where
  srcName : String
  dstName : String
  addressV4 : Option IPNet
  addressV6 : Option IPNet
  routes : List IPNet
deriving DecidableEq, Repr

/-- The sandbox aggregate: key, tracked interfaces (insertion order),
gateways, static routes, lifecycle state and the backing namespace. -/
structure Sb where
  key : String
  ifaces : List Iface
  gatewayV4 : Option IP
  gatewayV6 : Option IP
  staticRoutes : List StaticRoute
  state : SbState
  ns : Ns
deriving DecidableEq, Repr

/-- The world a sandbox operation acts on: the origin (host) namespace and
the sandbox itself. -/
structure World where
  host : Ns
  sb : Sb
deriving DecidableEq, Repr

/-- Modelled from the spec (section 9): the variadic `IfaceOption` values of
`AddInterface` as an explicit options record with the recognized fields
addressV4, addressV6 and routes, applied in that fixed order. -/
structure IfaceOptions where
  addressV4 : Option IPNet := none
  addressV6 : Option IPNet := none
  routes : Option (List IPNet) := none
deriving DecidableEq, Repr

/-- The names of the devices present in a namespace. -/
def devNames (ns : Ns) : List String :=
  ns.devs.map NetDev.name

/-- Look a device up by name. -/
def lookupDev (ns : Ns) (n : String) : Option NetDev :=
  ns.devs.find? (fun d => d.name = n)

/-- Rename a device in place. -/
def renameDev (ns : Ns) (old new : String) : Ns :=
  { ns with devs := ns.devs.map (fun d => if d.name = old then { d with name := new } else d) }

/-- Remove a device by name. -/
def removeDev (ns : Ns) (n : String) : Ns :=
  { ns with devs := ns.devs.filter (fun d => d.name ≠ n) }

/-- Add a device to a namespace. -/
def addDev (ns : Ns) (d : NetDev) : Ns :=
  { ns with devs := ns.devs ++ [d] }

/-- Modelled from the spec (section 4.2, step 1): search for the smallest
unused numeric suffix, trying at most `fuel` candidates from `n` upwards. -/
def findSuffix (taken : List String) (pfx : String) : Nat → Nat → Option Nat
  | 0, _ => none
  | fuel + 1, n =>
    if (pfx ++ Nat.repr n) ∈ taken then findSuffix taken pfx fuel (n + 1) else some n

/-- Modelled from the spec (sections 4.2 and 7): resolve the destination
name from a caller-supplied name prefix, failing with `nameExhausted` when
suffix generation finds no free name. -/
def resolveDstName (taken : List String) (pfx : String) : Except Err String :=
  match findSuffix taken pfx (taken.length + 1) 0 with
  | some n => Except.ok (pfx ++ Nat.repr n)
  | none => Except.error Err.nameExhausted

theorem findSuffix_free (taken : List String) (pfx : String) :
    ∀ fuel n m, findSuffix taken pfx fuel n = some m → (pfx ++ Nat.repr m) ∉ taken := by
  intro fuel
  induction fuel with
  | zero => intro n m h; simp [findSuffix] at h
  | succ k ih =>
    intro n m h
    simp only [findSuffix] at h
    split at h
    · exact ih (n + 1) m h
    · cases h
      assumption

theorem findSuffix_min (taken : List String) (pfx : String) :
    ∀ fuel n m, findSuffix taken pfx fuel n = some m →
      n ≤ m ∧ ∀ k, n ≤ k → k < m → (pfx ++ Nat.repr k) ∈ taken := by
  intro fuel
  induction fuel with
  | zero => intro n m h; simp [findSuffix] at h
  | succ fu ih =>
    intro n m h
    simp only [findSuffix] at h
    split at h
    · obtain ⟨hle, hall⟩ := ih (n + 1) m h
      refine ⟨Nat.le_of_succ_le hle, ?_⟩
      intro k hnk hkm
      rcases Nat.eq_or_lt_of_le hnk with heq | hlt
      · subst heq; assumption
      · exact hall k hlt hkm
    · cases h
      exact ⟨Nat.le.refl, fun k hk1 hk2 => absurd (Nat.lt_of_le_of_lt hk1 hk2) (Nat.lt_irrefl _)⟩

theorem resolveDstName_spec (taken : List String) (pfx dst : String)
    (h : resolveDstName taken pfx = Except.ok dst) :
    dst ∉ taken ∧ ∃ n, dst = pfx ++ Nat.repr n ∧
      ∀ m, m < n → (pfx ++ Nat.repr m) ∈ taken := by
  unfold resolveDstName at h
  split at h
  case _ n hfind =>
    cases h
    refine ⟨findSuffix_free taken pfx _ _ _ hfind, n, rfl, ?_⟩
    intro m hm
    exact (findSuffix_min taken pfx _ _ _ hfind).2 m (Nat.zero_le m) hm
  case _ => cases h

/-- The sub-steps of an interface move, in their fixed execution order. -/
inductive Step
  | resolve
  | rename
  | relocate
  | addr4
  | addr6
  | routes
deriving DecidableEq, Repr

/-- The error each sub-step raises when its underlying kernel call fails. -/
def stepErr : Step → Err
  | Step.resolve => Err.nameExhausted
  | Step.rename => Err.underlying "rename failed"
  | Step.relocate => Err.underlying "relocate failed"
  | Step.addr4 => Err.underlying "set ipv4 address failed"
  | Step.addr6 => Err.underlying "set ipv6 address failed"
  | Step.routes => Err.underlying "set routes failed"

/-- Set the IPv4 address of the named device. -/
def setDevAddrV4 (ns : Ns) (n : String) (a : IPNet) : Ns :=
  { ns with devs := ns.devs.map (fun d => if d.name = n then { d with addrV4 := some a } else d) }

/-- Set the IPv6 address of the named device. -/
def setDevAddrV6 (ns : Ns) (n : String) (a : IPNet) : Ns :=
  { ns with devs := ns.devs.map (fun d => if d.name = n then { d with addrV6 := some a } else d) }

/-- Set the directly connected routes of the named device. -/
def setDevRoutes (ns : Ns) (n : String) (rs : List IPNet) : Ns :=
  { ns with devs := ns.devs.map (fun d => if d.name = n then { d with devRoutes := rs } else d) }

/-- Modelled from the spec (section 4.2, step 4, routes part). -/
def applyRoutesOpt (f : Step → Bool) (dst : String) (o : IfaceOptions) (w : World) :
    World × Option Err :=
  match o.routes with
  | none => (w, none)
  | some rs =>
    if f Step.routes then (w, some (stepErr Step.routes))
    else ({ w with sb := { w.sb with ns := setDevRoutes w.sb.ns dst rs } }, none)

/-- Modelled from the spec (section 4.2, step 4, addressV6 part). -/
def applyV6Opt (f : Step → Bool) (dst : String) (o : IfaceOptions) (w : World) :
    World × Option Err :=
  match o.addressV6 with
  | none => applyRoutesOpt f dst o w
  | some a =>
    if f Step.addr6 then (w, some (stepErr Step.addr6))
    else applyRoutesOpt f dst o { w with sb := { w.sb with ns := setDevAddrV6 w.sb.ns dst a } }

/-- Modelled from the spec (section 4.2, step 4, addressV4 part): apply the
requested options in the fixed order addressV4, addressV6, routes, stopping
at the first failing sub-step. -/
def applyV4Opt (f : Step → Bool) (dst : String) (o : IfaceOptions) (w : World) :
    World × Option Err :=
  match o.addressV4 with
  | none => applyV6Opt f dst o w
  | some a =>
    if f Step.addr4 then (w, some (stepErr Step.addr4))
    else applyV6Opt f dst o { w with sb := { w.sb with ns := setDevAddrV4 w.sb.ns dst a } }

/-- Modelled from the spec (section 4.2, failure policy): undo a completed
move of device `d` (currently named `dst` inside the sandbox namespace) by
taking it out of the sandbox namespace and restoring the original device —
original name, original addresses — in the host namespace. -/
def rollbackMove (wc : World) (d : NetDev) (dst : String) : World :=
  { host := addDev wc.host d,
    sb := { wc.sb with ns := removeDev wc.sb.ns dst } }

/-- Modelled from the spec (sections 4.2 and 4.3): `Sandbox.AddInterface`.
Resolves the destination name from the prefix, renames the source device,
relocates it into the sandbox namespace, applies the requested options in
order, and appends the tracked interface record; any sub-step failure undoes
all completed sub-steps and reports that first failure.  The fault oracle
`f` tells which underlying kernel calls fail. -/
def addInterface (f : Step → Bool) (src pfx : String) (o : IfaceOptions) (w : World) :
    World × Option Err :=
  if w.sb.state = SbState.destroyed then (w, some Err.invalidState) else
  if f Step.resolve then (w, some (stepErr Step.resolve)) else
  match resolveDstName (devNames w.sb.ns) pfx with
  | Except.error e => (w, some e)
  | Except.ok dst =>
    match lookupDev w.host src with
    | none => (w, some (Err.underlying "source interface not found"))
    | some d =>
      if f Step.rename ∨ (lookupDev w.host dst).isSome then (w, some (stepErr Step.rename)) else
      let h1 := renameDev w.host src dst
      if f Step.relocate then
        ({ w with host := renameDev h1 dst src }, some (stepErr Step.relocate))
      else
        let w2 : World := { host := removeDev h1 dst,
                            sb := { w.sb with ns := addDev w.sb.ns { d with name := dst } } }
        match applyV4Opt f dst o w2 with
        | (wp, some e) => (rollbackMove wp d dst, some e)
        | (w3, none) =>
          ({ host := w3.host,
             sb := { w3.sb with
                       ifaces := w3.sb.ifaces ++
                         [{ srcName := src, dstName := dst,
                            addressV4 := o.addressV4, addressV6 := o.addressV6,
                            routes := o.routes.getD [] }],
                       state := SbState.active } }, none)

/-- The sub-steps executed for a given options record, in order. -/
def stepsOf (o : IfaceOptions) : List Step :=
  [Step.resolve, Step.rename, Step.relocate] ++
  (if o.addressV4.isSome then [Step.addr4] else []) ++
  (if o.addressV6.isSome then [Step.addr6] else []) ++
  (if o.routes.isSome then [Step.routes] else [])

/-- The default routes of one family in a namespace. -/
def famDefaults (fam : Fam) (ns : Ns) : List IP :=
  (ns.defRoutes.filter (fun r => r.1 = fam)).map Prod.snd

/-- Modelled from the spec (section 4.3): `SetGateway`.  Replacing an
existing IPv4 gateway first removes the old default route, then installs the
new one. -/
def setGateway (gw : IP) (w : World) : World × Option Err :=
  if w.sb.state = SbState.destroyed then (w, some Err.invalidState) else
  let ns1 :=
    match w.sb.gatewayV4 with
    | some _ => { w.sb.ns with defRoutes := w.sb.ns.defRoutes.filter (fun r => ¬ r.1 = Fam.v4) }
    | none => w.sb.ns
  ({ w with sb := { w.sb with
      ns := { ns1 with defRoutes := ns1.defRoutes ++ [(Fam.v4, gw)] },
      gatewayV4 := some gw,
      state := SbState.active } }, none)

/-- Modelled from the spec (section 4.3): `SetGatewayIPv6`. -/
def setGatewayIPv6 (gw : IP) (w : World) : World × Option Err :=
  if w.sb.state = SbState.destroyed then (w, some Err.invalidState) else
  let ns1 :=
    match w.sb.gatewayV6 with
    | some _ => { w.sb.ns with defRoutes := w.sb.ns.defRoutes.filter (fun r => ¬ r.1 = Fam.v6) }
    | none => w.sb.ns
  ({ w with sb := { w.sb with
      ns := { ns1 with defRoutes := ns1.defRoutes ++ [(Fam.v6, gw)] },
      gatewayV6 := some gw,
      state := SbState.active } }, none)

/-- Modelled from the spec (sections 4.3 and 8, choosing the recommended
idempotent policy): `UnsetGateway` removes the IPv4 default route and is a
no-op when no gateway is set. -/
def unsetGateway (w : World) : World × Option Err :=
  if w.sb.state = SbState.destroyed then (w, some Err.invalidState) else
  match w.sb.gatewayV4 with
  | none => (w, none)
  | some _ =>
    ({ w with sb := { w.sb with
        ns := { w.sb.ns with defRoutes := w.sb.ns.defRoutes.filter (fun r => ¬ r.1 = Fam.v4) },
        gatewayV4 := none,
        state := SbState.active } }, none)

/-- Modelled from the spec: `UnsetGatewayIPv6`, same policy as `UnsetGateway`. -/
def unsetGatewayIPv6 (w : World) : World × Option Err :=
  if w.sb.state = SbState.destroyed then (w, some Err.invalidState) else
  match w.sb.gatewayV6 with
  | none => (w, none)
  | some _ =>
    ({ w with sb := { w.sb with
        ns := { w.sb.ns with defRoutes := w.sb.ns.defRoutes.filter (fun r => ¬ r.1 = Fam.v6) },
        gatewayV6 := none,
        state := SbState.active } }, none)

/-- Modelled from the spec (section 4.3): `AddStaticRoute`; adding a
duplicate (same destination and gateway) is an idempotent no-op. -/
def addStaticRoute (r : StaticRoute) (w : World) : World × Option Err :=
  if w.sb.state = SbState.destroyed then (w, some Err.invalidState) else
  if w.sb.staticRoutes.any (fun x => routeKey x = routeKey r) then (w, none)
  else
    ({ w with sb := { w.sb with
        staticRoutes := w.sb.staticRoutes ++ [r],
        state := SbState.active } }, none)

/-- Modelled from the spec (section 4.3): `RemoveStaticRoute`; removing a
route that is not in the set fails with `notFound`. -/
def removeStaticRoute (r : StaticRoute) (w : World) : World × Option Err :=
  if w.sb.state = SbState.destroyed then (w, some Err.invalidState) else
  if w.sb.staticRoutes.any (fun x => routeKey x = routeKey r) then
    ({ w with sb := { w.sb with
        staticRoutes := w.sb.staticRoutes.filter (fun x => ¬ routeKey x = routeKey r),
        state := SbState.active } }, none)
  else (w, some Err.notFound)

/-- The device to restore in the origin namespace when an interface is
removed from a sandbox: the current device renamed back to its source name,
or a device rebuilt from the tracked record if the namespace lost it. -/
def origDev (ns : Ns) (i : Iface) : NetDev :=
  match lookupDev ns i.dstName with
  | some d => { d with name := i.srcName }
  | none => { name := i.srcName, addrV4 := i.addressV4, addrV6 := i.addressV6,
              devRoutes := i.routes }

/-- Modelled from the spec (sections 4.2 Remove and 4.3 Destroy): move one
interface back to the origin namespace under its original name; when the
move back fails the device is dropped with the namespace and the failure is
recorded (best effort), naming the interface. -/
def moveBack (failRm : String → Bool) (w : World) (i : Iface) : World × Option String :=
  if failRm i.dstName then
    ({ w with sb := { w.sb with ns := removeDev w.sb.ns i.dstName } }, some i.dstName)
  else
    ({ host := addDev w.host (origDev w.sb.ns i),
       sb := { w.sb with ns := removeDev w.sb.ns i.dstName } }, none)

/-- Modelled from the spec (section 4.3): the teardown loop of `Destroy`,
which keeps going past sub-failures and collects them all. -/
def destroyLoop (failRm : String → Bool) : List Iface → World → World × List String
  | [], w => (w, [])
  | i :: rest, w =>
    let p := moveBack failRm w i
    let q := destroyLoop failRm rest p.1
    (q.1, (match p.2 with | some m => [m] | none => []) ++ q.2)

/-- Modelled from the spec (section 4.3): `Destroy` removes every interface
(best effort), clears gateways and routes, tears the namespace down,
transitions to `destroyed`, and aggregates all sub-failures into one
combined error. -/
def destroy (failRm : String → Bool) (w : World) : World × Option Err :=
  if w.sb.state = SbState.destroyed then (w, some Err.invalidState) else
  let p := destroyLoop failRm w.sb.ifaces w
  ({ host := p.1.host,
     sb := { key := w.sb.key, ifaces := [], gatewayV4 := none, gatewayV6 := none,
             staticRoutes := [], state := SbState.destroyed,
             ns := { devs := [], defRoutes := [] } } },
   if p.2.isEmpty then none else some (Err.combined p.2))

/-- The mutating operations of the `Sandbox` interface. -/
inductive SbOp
  | addIface (f : Step → Bool) (src pfx : String) (o : IfaceOptions)
  | setGw (gw : IP)
  | setGw6 (gw : IP)
  | unsetGw
  | unsetGw6
  | addRoute (r : StaticRoute)
  | rmRoute (r : StaticRoute)
  | destroyOp (failRm : String → Bool)

/-- Dispatch one sandbox operation. -/
def applyOp : SbOp → World → World × Option Err
  | SbOp.addIface f src pfx o, w => addInterface f src pfx o w
  | SbOp.setGw gw, w => setGateway gw w
  | SbOp.setGw6 gw, w => setGatewayIPv6 gw w
  | SbOp.unsetGw, w => unsetGateway w
  | SbOp.unsetGw6, w => unsetGatewayIPv6 w
  | SbOp.addRoute r, w => addStaticRoute r w
  | SbOp.rmRoute r, w => removeStaticRoute r w
  | SbOp.destroyOp failRm, w => destroy failRm w

/-- Run a sequence of sandbox operations, discarding the per-call errors. -/
def runOps (ops : List SbOp) (w : World) : World :=
  ops.foldl (fun wc op => (applyOp op wc).1) w

/-- The read-only snapshot returned by the `Info` capability of
`sandbox.go`: interfaces, IPv4 gateway, IPv6 gateway, static routes. -/
structure InfoView where
  interfaces : List Iface
  gateway : Option IP
  gatewayIPv6 : Option IP
  staticRoutes : List StaticRoute
deriving DecidableEq, Repr

/-- Modelled from the spec (section 4.3): `Info`, the read-only state
export. -/
def info (w : World) : InfoView :=
  { interfaces := w.sb.ifaces,
    gateway := w.sb.gatewayV4,
    gatewayIPv6 := w.sb.gatewayV6,
    staticRoutes := w.sb.staticRoutes }

theorem map_name_preserve (g : NetDev → NetDev) (h : ∀ d, (g d).name = d.name) :
    ∀ l : List NetDev, (l.map g).map NetDev.name = l.map NetDev.name := by
  intro l
  induction l with
  | nil => rfl
  | cons d rest ih => simp [h d, ih]

theorem filter_map_local (g : NetDev → NetDev) (dst : String)
    (hname : ∀ d, (g d).name = d.name) (hid : ∀ d, ¬ d.name = dst → g d = d) :
    ∀ l : List NetDev,
      (l.map g).filter (fun d => d.name ≠ dst) = l.filter (fun d => d.name ≠ dst) := by
  intro l
  induction l with
  | nil => rfl
  | cons d rest ih =>
    simp only [List.map_cons, List.filter_cons, ne_eq, decide_not] at ih ⊢
    by_cases hd : d.name = dst
    · rw [hname d, hd]
      simp [ih]
    · rw [hname d, hid d hd]
      simp [hd, ih]

/-- The sub-step effects on the sandbox namespace touch only the device
named `dst`: device names, default routes, and the namespace with `dst`
removed are all unchanged; the host and every other sandbox field are
unchanged as well. -/
def WLocal (dst : String) (w w' : World) : Prop :=
  w'.host = w.host ∧
  w'.sb = { w.sb with ns := w'.sb.ns } ∧
  devNames w'.sb.ns = devNames w.sb.ns ∧
  w'.sb.ns.defRoutes = w.sb.ns.defRoutes ∧
  removeDev w'.sb.ns dst = removeDev w.sb.ns dst

theorem wLocal_refl (dst : String) (w : World) : WLocal dst w w :=
  ⟨rfl, rfl, rfl, rfl, rfl⟩

theorem wLocal_trans {dst : String} {w1 w2 w3 : World}
    (h12 : WLocal dst w1 w2) (h23 : WLocal dst w2 w3) : WLocal dst w1 w3 := by
  obtain ⟨a1, b1, c1, d1, e1⟩ := h12
  obtain ⟨a2, b2, c2, d2, e2⟩ := h23
  refine ⟨a2.trans a1, ?_, c2.trans c1, d2.trans d1, e2.trans e1⟩
  rw [b2, b1]

theorem wLocal_setDev (dst : String) (w : World) (g : NetDev → NetDev)
    (hname : ∀ d, (g d).name = d.name) (hid : ∀ d, ¬ d.name = dst → g d = d) :
    WLocal dst w { w with sb := { w.sb with ns := { w.sb.ns with devs := w.sb.ns.devs.map g } } } := by
  refine ⟨rfl, rfl, ?_, rfl, ?_⟩
  · simpa [devNames] using map_name_preserve g hname w.sb.ns.devs
  · simp only [removeDev]
    rw [filter_map_local g dst hname hid]

theorem applyRoutesOpt_local (f : Step → Bool) (dst : String) (o : IfaceOptions) (w : World) :
    WLocal dst w (applyRoutesOpt f dst o w).1 := by
  unfold applyRoutesOpt
  cases o.routes with
  | none => exact wLocal_refl dst w
  | some rs =>
    by_cases hf : f Step.routes
    · simp [hf]; exact wLocal_refl dst w
    · simp only [hf, if_false, Bool.false_eq_true]
      exact wLocal_setDev dst w _ (by intro d; split <;> rfl)
        (by intro d hd; simp [setDevRoutes, hd])

theorem applyV6Opt_local (f : Step → Bool) (dst : String) (o : IfaceOptions) (w : World) :
    WLocal dst w (applyV6Opt f dst o w).1 := by
  unfold applyV6Opt
  cases o.addressV6 with
  | none => exact applyRoutesOpt_local f dst o w
  | some a =>
    by_cases hf : f Step.addr6
    · simp [hf]; exact wLocal_refl dst w
    · simp only [hf, if_false, Bool.false_eq_true]
      exact wLocal_trans
        (wLocal_setDev dst w _ (by intro d; split <;> rfl)
          (by intro d hd; simp [setDevAddrV6, hd]))
        (applyRoutesOpt_local f dst o _)

theorem applyV4Opt_local (f : Step → Bool) (dst : String) (o : IfaceOptions) (w : World) :
    WLocal dst w (applyV4Opt f dst o w).1 := by
  unfold applyV4Opt
  cases o.addressV4 with
  | none => exact applyV6Opt_local f dst o w
  | some a =>
    by_cases hf : f Step.addr4
    · simp [hf]; exact wLocal_refl dst w
    · simp only [hf, if_false, Bool.false_eq_true]
      exact wLocal_trans
        (wLocal_setDev dst w _ (by intro d; split <;> rfl)
          (by intro d hd; simp [setDevAddrV4, hd]))
        (applyV6Opt_local f dst o _)

theorem rename_rename (src dst : String) (l : List NetDev)
    (hdst : ∀ d ∈ l, ¬ d.name = dst) :
    (l.map (fun d => if d.name = src then { d with name := dst } else d)).map
      (fun d => if d.name = dst then { d with name := src } else d) = l := by
  induction l with
  | nil => rfl
  | cons d rest ih =>
    have hd' : ¬ d.name = dst := hdst d (List.mem_cons_self d rest)
    have ih' := ih (fun x hx => hdst x (List.mem_cons_of_mem d hx))
    by_cases hs : d.name = src
    · obtain ⟨nm, a4, a6, dr⟩ := d
      simp only at hs
      subst hs
      simp [ih']
    · simp only [List.map_cons, if_neg hs, if_neg hd', ih']

theorem find?_rename_filter_src (src dst : String) (l : List NetDev) :
    ((l.map (fun d => if d.name = src then { d with name := dst } else d)).filter
        (fun d => d.name ≠ dst)).find? (fun d => d.name = src) = none := by
  rw [List.find?_eq_none]
  intro x hx
  obtain ⟨hx1, hx2⟩ := List.mem_filter.mp hx
  obtain ⟨y, hy, hxy⟩ := List.mem_map.mp hx1
  by_cases hs : y.name = src
  · rw [if_pos hs] at hxy
    subst hxy
    simp at hx2
  · rw [if_neg hs] at hxy
    subst hxy
    simpa using hs

theorem find?_filter_dst_none (dst : String) (l : List NetDev)
    (p : NetDev → Bool) (hp : ∀ x, p x = true → x.name = dst) :
    (l.filter (fun d => d.name ≠ dst)).find? p = none := by
  rw [List.find?_eq_none]
  intro x hx
  obtain ⟨hx1, hx2⟩ := List.mem_filter.mp hx
  intro hpx
  have := hp x hpx
  simp [this] at hx2

theorem filter_map_rename (src dst : String) (l : List NetDev)
    (hdst : ∀ d ∈ l, ¬ d.name = dst) :
    (l.map (fun d => if d.name = src then { d with name := dst } else d)).filter
        (fun d => d.name ≠ dst) = l.filter (fun d => ¬ d.name = src) := by
  induction l with
  | nil => rfl
  | cons d rest ih =>
    have hd' : ¬ d.name = dst := hdst d (List.mem_cons_self d rest)
    have ih' := ih (fun x hx => hdst x (List.mem_cons_of_mem d hx))
    simp only [ne_eq, decide_not] at ih' ⊢
    by_cases hs : d.name = src
    · simp [hs, ih']
    · simp [hs, hd', ih']

theorem find?_filter_not_src (src n : String) (hn : ¬ n = src) (l : List NetDev) :
    (l.filter (fun d => ¬ d.name = src)).find? (fun d => d.name = n)
      = l.find? (fun d => d.name = n) := by
  induction l with
  | nil => rfl
  | cons d rest ih =>
    by_cases hs : d.name = src
    · have h1 : ¬ d.name = n := fun hc => hn (hc.symm.trans hs)
      rw [List.filter_cons_of_neg (by simp [hs]), List.find?_cons_of_neg _ (by simp [h1]), ih]
    · rw [List.filter_cons_of_pos (by simp [hs])]
      by_cases hdn : d.name = n
      · rw [List.find?_cons_of_pos _ (by simp [hdn]), List.find?_cons_of_pos _ (by simp [hdn])]
      · rw [List.find?_cons_of_neg _ (by simp [hdn]), List.find?_cons_of_neg _ (by simp [hdn]), ih]

theorem removeDev_addDev (ns : Ns) (d : NetDev) (hfresh : d.name ∉ devNames ns) :
    removeDev (addDev ns d) d.name = ns := by
  obtain ⟨devs, dr⟩ := ns
  simp only [removeDev, addDev, List.filter_append]
  have h1 : devs.filter (fun x => x.name ≠ d.name) = devs := by
    rw [List.filter_eq_self]
    intro x hx
    have hmem : x.name ∈ devNames ⟨devs, dr⟩ := List.mem_map_of_mem NetDev.name hx
    have hc : ¬ x.name = d.name := fun hc => hfresh (hc ▸ hmem)
    simp [hc]
  have h2 : List.filter (fun x => x.name ≠ d.name) ([d] : List NetDev) = [] := by simp
  rw [h1, h2]
  simp

theorem lookup_rollback (src dst : String) (d : NetDev) (h0 : Ns)
    (hd : lookupDev h0 src = some d)
    (hdst : lookupDev h0 dst = none) (n : String) :
    lookupDev (addDev (removeDev (renameDev h0 src dst) dst) d) n = lookupDev h0 n := by
  have hdname : d.name = src := by
    have := List.find?_some hd
    simpa using this
  have hdstAll : ∀ x ∈ h0.devs, ¬ x.name = dst := by
    intro x hx
    have := List.find?_eq_none.mp hdst x hx
    simpa using this
  have hsrcdst : ¬ src = dst := fun hc =>
    hdstAll d (List.mem_of_find?_eq_some hd) (hdname.trans hc)
  simp only [lookupDev, addDev, removeDev, renameDev, List.find?_append]
  rw [filter_map_rename src dst h0.devs hdstAll]
  by_cases hn1 : n = src
  · rw [hn1]
    have hnone : (h0.devs.filter (fun x => ¬ x.name = src)).find? (fun x => x.name = src)
        = none := by
      rw [List.find?_eq_none]
      intro x hx
      have := (List.mem_filter.mp hx).2
      simpa using this
    rw [hnone]
    have hd' : h0.devs.find? (fun x => x.name = src) = some d := hd
    rw [hd']
    simp [Option.or, hdname]
  · by_cases hn2 : n = dst
    · rw [hn2]
      have hnone : (h0.devs.filter (fun x => ¬ x.name = src)).find? (fun x => x.name = dst)
          = none := by
        rw [List.find?_eq_none]
        intro x hx
        have := hdstAll x (List.mem_filter.mp hx).1
        simpa using this
      rw [hnone]
      have hdst' : h0.devs.find? (fun x => x.name = dst) = none := hdst
      rw [hdst']
      have hdn : ¬ d.name = dst := hdname ▸ hsrcdst
      simp [Option.or, hdn]
    · rw [find?_filter_not_src src n hn1 h0.devs]
      cases hfind : h0.devs.find? (fun x => x.name = n) with
      | some a => simp [Option.or]
      | none =>
        have hdn : ¬ d.name = n := fun hc => hn1 (hc.symm.trans hdname)
        simp [Option.or, hdn]

theorem renameDev_renameDev (h0 : Ns) (src dst : String)
    (hdst : ∀ x ∈ h0.devs, ¬ x.name = dst) :
    renameDev (renameDev h0 src dst) dst src = h0 := by
  obtain ⟨devs, dr⟩ := h0
  simp only [renameDev]
  congr 1
  exact rename_rename src dst devs (by simpa using hdst)

theorem addInterface_err_state (f : Step → Bool) (src pfx : String) (o : IfaceOptions)
    (w w' : World) (e : Err)
    (h : addInterface f src pfx o w = (w', some e)) :
    w'.sb = w.sb ∧ (∀ n, lookupDev w'.host n = lookupDev w.host n) ∧
    w'.host.defRoutes = w.host.defRoutes := by
  simp only [addInterface] at h
  split at h
  · injection h with h1 h2
    subst h1
    exact ⟨rfl, fun n => rfl, rfl⟩
  split at h
  · injection h with h1 h2
    subst h1
    exact ⟨rfl, fun n => rfl, rfl⟩
  split at h
  case _ e' hre =>
    injection h with h1 h2
    subst h1
    exact ⟨rfl, fun n => rfl, rfl⟩
  case _ dst hre =>
  split at h
  case _ hsrc =>
    injection h with h1 h2
    subst h1
    exact ⟨rfl, fun n => rfl, rfl⟩
  case _ d hsrc =>
  split at h
  case isTrue hg =>
    injection h with h1 h2
    subst h1
    exact ⟨rfl, fun n => rfl, rfl⟩
  case isFalse hg =>
  have hdstnone : lookupDev w.host dst = none := by
    cases hcase : lookupDev w.host dst with
    | none => rfl
    | some x => exact absurd (Or.inr (by simp [hcase])) hg
  have hhostdst : ∀ x ∈ w.host.devs, ¬ x.name = dst := by
    intro x hx
    have := List.find?_eq_none.mp hdstnone x hx
    simpa using this
  split at h
  case isTrue hrel =>
    injection h with h1 h2
    subst h1
    refine ⟨rfl, ?_, ?_⟩
    · intro n
      rw [renameDev_renameDev w.host src dst hhostdst]
    · rw [renameDev_renameDev w.host src dst hhostdst]
  case isFalse hrel =>
  split at h
  case _ wp e2 happ =>
    injection h with h1 h2
    subst h1
    have hloc := applyV4Opt_local f dst o
      { host := removeDev (renameDev w.host src dst) dst,
        sb := { w.sb with ns := addDev w.sb.ns { d with name := dst } } }
    rw [happ] at hloc
    obtain ⟨hhost, hsb, hnames, hdr, hrm⟩ := hloc
    have hfresh : dst ∉ devNames w.sb.ns := (resolveDstName_spec _ _ _ hre).1
    have hrmAdd : removeDev (addDev w.sb.ns { d with name := dst }) dst = w.sb.ns :=
      removeDev_addDev w.sb.ns { d with name := dst } hfresh
    refine ⟨?_, ?_, ?_⟩
    · show { wp.sb with ns := removeDev wp.sb.ns dst } = w.sb
      rw [hsb, hrm]
      simp only
      rw [hrmAdd]
    · intro n
      show lookupDev (addDev wp.host d) n = lookupDev w.host n
      rw [hhost]
      exact lookup_rollback src dst d w.host hsrc hdstnone n
    · show (addDev wp.host d).defRoutes = w.host.defRoutes
      rw [hhost]
      rfl
  case _ w3 happ =>
    injection h with h1 h2
    cases h2

theorem applyRoutesOpt_err (f : Step → Bool) (dst : String) (o : IfaceOptions) (w : World) :
    (applyRoutesOpt f dst o w).2 =
      (((if o.routes.isSome then [Step.routes] else []).find? f).map stepErr) := by
  unfold applyRoutesOpt
  cases o.routes with
  | none => simp
  | some rs =>
    by_cases hf : f Step.routes
    · simp [hf, List.find?_cons]
    · simp [hf, List.find?_cons]

theorem applyV6Opt_err (f : Step → Bool) (dst : String) (o : IfaceOptions) (w : World) :
    (applyV6Opt f dst o w).2 =
      ((((if o.addressV6.isSome then [Step.addr6] else []) ++
         (if o.routes.isSome then [Step.routes] else [])).find? f).map stepErr) := by
  unfold applyV6Opt
  cases ha : o.addressV6 with
  | none => simpa using applyRoutesOpt_err f dst o w
  | some a =>
    by_cases hf : f Step.addr6
    · simp [hf, List.find?_cons]
    · simp only [hf, if_false, Bool.false_eq_true]
      have := applyRoutesOpt_err f dst o
        { w with sb := { w.sb with ns := setDevAddrV6 w.sb.ns dst a } }
      simp [this, hf, List.find?_cons, List.find?_append]

theorem applyV4Opt_err (f : Step → Bool) (dst : String) (o : IfaceOptions) (w : World) :
    (applyV4Opt f dst o w).2 =
      ((((if o.addressV4.isSome then [Step.addr4] else []) ++
         (if o.addressV6.isSome then [Step.addr6] else []) ++
         (if o.routes.isSome then [Step.routes] else [])).find? f).map stepErr) := by
  unfold applyV4Opt
  cases ha : o.addressV4 with
  | none => simpa using applyV6Opt_err f dst o w
  | some a =>
    by_cases hf : f Step.addr4
    · simp [hf, List.find?_cons]
    · simp only [hf, if_false, Bool.false_eq_true]
      have := applyV6Opt_err f dst o
        { w with sb := { w.sb with ns := setDevAddrV4 w.sb.ns dst a } }
      simp [this, hf, List.find?_cons, List.find?_append]

theorem addInterface_first_err (f : Step → Bool) (src pfx : String) (o : IfaceOptions)
    (w : World) (dst : String) (d : NetDev)
    (hdes : ¬ w.sb.state = SbState.destroyed)
    (hre : resolveDstName (devNames w.sb.ns) pfx = Except.ok dst)
    (hsrc : lookupDev w.host src = some d)
    (hdstnone : lookupDev w.host dst = none) :
    (addInterface f src pfx o w).2 = ((stepsOf o).find? f).map stepErr := by
  simp only [addInterface, hre, hsrc, hdstnone]
  rw [if_neg hdes]
  by_cases hres : f Step.resolve
  · simp [hres, stepsOf, List.find?_cons]
  · have hres' : f Step.resolve = false := by simpa using hres
    simp only [hres', if_false, Bool.false_eq_true, Option.isSome_none]
    by_cases hren : f Step.rename
    · simp [hren, hres', stepsOf, List.find?_cons]
    · have hren' : f Step.rename = false := by simpa using hren
      simp only [hren', if_false, Bool.false_eq_true, or_self, Bool.false_eq_true]
      by_cases hrel : f Step.relocate
      · simp [hrel, hres', hren', stepsOf, List.find?_cons]
      · have hrel' : f Step.relocate = false := by simpa using hrel
        simp only [hrel', if_false, Bool.false_eq_true]
        rcases happ : applyV4Opt f dst o
          { host := removeDev (renameDev w.host src dst) dst,
            sb := { w.sb with ns := addDev w.sb.ns { d with name := dst } } } with ⟨wp, eo⟩
        have herr := applyV4Opt_err f dst o
          { host := removeDev (renameDev w.host src dst) dst,
            sb := { w.sb with ns := addDev w.sb.ns { d with name := dst } } }
        rw [happ] at herr
        cases eo with
        | none =>
          simp only [happ]
          simp only [List.find?_append, Option.or_assoc] at herr
          simp [stepsOf, List.find?_append, List.find?_cons, hres', hren', hrel', Option.or_assoc]
          exact herr
        | some e2 =>
          simp only [happ]
          simp only [List.find?_append, Option.or_assoc] at herr
          simp [stepsOf, List.find?_append, List.find?_cons, hres', hren', hrel', Option.or_assoc]
          exact herr

theorem devNames_addDev (ns : Ns) (d : NetDev) :
    devNames (addDev ns d) = devNames ns ++ [d.name] := by
  simp [devNames, addDev]

theorem addInterface_ok_spec (f : Step → Bool) (src pfx : String) (o : IfaceOptions)
    (w w' : World) (h : addInterface f src pfx o w = (w', none)) :
    ∃ dst d, resolveDstName (devNames w.sb.ns) pfx = Except.ok dst ∧
      lookupDev w.host src = some d ∧
      w'.sb.ifaces = w.sb.ifaces ++
        [{ srcName := src, dstName := dst, addressV4 := o.addressV4,
           addressV6 := o.addressV6, routes := o.routes.getD [] }] ∧
      devNames w'.sb.ns = devNames w.sb.ns ++ [dst] ∧
      w'.sb.state = SbState.active ∧
      w'.sb.key = w.sb.key ∧ w'.sb.gatewayV4 = w.sb.gatewayV4 ∧
      w'.sb.gatewayV6 = w.sb.gatewayV6 ∧ w'.sb.staticRoutes = w.sb.staticRoutes ∧
      w'.sb.ns.defRoutes = w.sb.ns.defRoutes := by
  simp only [addInterface] at h
  split at h
  · injection h with h1 h2; cases h2
  split at h
  · injection h with h1 h2; cases h2
  split at h
  case _ e' hre => injection h with h1 h2; cases h2
  case _ dst hre =>
  split at h
  case _ hsrc => injection h with h1 h2; cases h2
  case _ d hsrc =>
  split at h
  case isTrue hg => injection h with h1 h2; cases h2
  case isFalse hg =>
  split at h
  case isTrue hrel => injection h with h1 h2; cases h2
  case isFalse hrel =>
  split at h
  case _ wp e2 happ => injection h with h1 h2; cases h2
  case _ w3 happ =>
    injection h with h1 h2
    subst h1
    have hloc := applyV4Opt_local f dst o
      { host := removeDev (renameDev w.host src dst) dst,
        sb := { w.sb with ns := addDev w.sb.ns { d with name := dst } } }
    rw [happ] at hloc
    obtain ⟨hhost, hsb, hnames, hdr, hrm⟩ := hloc
    refine ⟨dst, d, hre, hsrc, ?_, ?_, rfl, ?_, ?_, ?_, ?_, ?_⟩
    · show w3.sb.ifaces ++ _ = w.sb.ifaces ++ _
      rw [hsb]
    · show devNames w3.sb.ns = devNames w.sb.ns ++ [dst]
      rw [hnames]
      exact devNames_addDev w.sb.ns { d with name := dst }
    · show w3.sb.key = w.sb.key
      rw [hsb]
    · show w3.sb.gatewayV4 = w.sb.gatewayV4
      rw [hsb]
    · show w3.sb.gatewayV6 = w.sb.gatewayV6
      rw [hsb]
    · show w3.sb.staticRoutes = w.sb.staticRoutes
      rw [hsb]
    · show w3.sb.ns.defRoutes = w.sb.ns.defRoutes
      rw [hdr]
      simp [addDev]

/-- A host veth device used in concrete runs. -/
def sampleDev : NetDev := { name := "veth123", addrV4 := none, addrV6 := none, devRoutes := [] }

/-- A second host veth device used in concrete runs. -/
def sampleDev2 : NetDev := { name := "veth124", addrV4 := none, addrV6 := none, devRoutes := [] }

/-- The loopback device automatically present in a fresh namespace. -/
def loDev : NetDev := { name := "lo", addrV4 := none, addrV6 := none, devRoutes := [] }

/-- A concrete world: a host with two veth devices and a fresh sandbox
whose namespace holds only the loopback device. -/
def sampleWorld : World :=
  { host := { devs := [sampleDev, sampleDev2], defRoutes := [] },
    sb := { key := "/var/run/netns/sbx1", ifaces := [], gatewayV4 := none, gatewayV6 := none,
            staticRoutes := [], state := SbState.created,
            ns := { devs := [loDev], defRoutes := [] } } }

/-- A fault oracle failing exactly the set-IPv4-address sub-step. -/
def failAddr4 : Step → Bool := fun s => s = Step.addr4

/-- A fault oracle under which every kernel call succeeds. -/
def noFail : Step → Bool := fun _ => false

/-- Options requesting only an IPv4 address. -/
def sampleOpts : IfaceOptions := { addressV4 := some { ip := "10.0.0.2", maskBits := 24 } }

/-- C1: if any sub-step of AddInterface fails, the sandbox and the interface
are left exactly in their pre-move state — the sandbox record is unchanged,
every host device is found under its original name with its original
configuration, and the host routes are untouched — and the call returns the
error of the first failing sub-step in execution order; in particular no
outcome leaves the interface renamed-but-not-moved or moved-but-unaddressed
when addressing was requested. -/
theorem addInterface_atomic_on_failure (f : Step → Bool) (src pfx : String)
    (o : IfaceOptions) (w : World) :
    (∀ w' e, addInterface f src pfx o w = (w', some e) →
      w'.sb = w.sb ∧ (∀ n, lookupDev w'.host n = lookupDev w.host n) ∧
      w'.host.defRoutes = w.host.defRoutes) ∧
    (∀ dst d, ¬ w.sb.state = SbState.destroyed →
      resolveDstName (devNames w.sb.ns) pfx = Except.ok dst →
      lookupDev w.host src = some d →
      lookupDev w.host dst = none →
      (addInterface f src pfx o w).2 = ((stepsOf o).find? f).map stepErr) := by
  constructor
  · intro w' e h
    exact addInterface_err_state f src pfx o w w' e h
  · intro dst d h1 h2 h3 h4
    exact addInterface_first_err f src pfx o w dst d h1 h2 h3 h4

/-- Witness for C1 at a concrete world: an injected failure of the
set-IPv4-address sub-step leaves the sandbox unchanged and reports the
first failing sub-step. -/
theorem addInterface_atomic_on_failure_witness :
    (addInterface failAddr4 "veth123" "eth" sampleOpts sampleWorld).1.sb = sampleWorld.sb ∧
    (addInterface failAddr4 "veth123" "eth" sampleOpts sampleWorld).2
      = ((stepsOf sampleOpts).find? failAddr4).map stepErr := by
  constructor
  · exact ((addInterface_atomic_on_failure failAddr4 "veth123" "eth" sampleOpts sampleWorld).1
      (addInterface failAddr4 "veth123" "eth" sampleOpts sampleWorld).1
      (Err.underlying "set ipv4 address failed") (by decide)).1
  · exact (addInterface_atomic_on_failure failAddr4 "veth123" "eth" sampleOpts sampleWorld).2
      "eth0" sampleDev (by decide) (by rfl) (by decide) (by decide)

/-- C3: two successive successful AddInterface calls with the same prefix
append two interface records whose resolved destination names are distinct,
and each resolved name is the prefix followed by the smallest numeric suffix
not already used in the target namespace. -/
theorem addInterface_same_prefix_distinct (f1 f2 : Step → Bool) (src1 src2 pfx : String)
    (o1 o2 : IfaceOptions) (w w1 w2 : World)
    (h1 : addInterface f1 src1 pfx o1 w = (w1, none))
    (h2 : addInterface f2 src2 pfx o2 w1 = (w2, none)) :
    ∃ i1 i2, w1.sb.ifaces = w.sb.ifaces ++ [i1] ∧ w2.sb.ifaces = w1.sb.ifaces ++ [i2] ∧
      ¬ i1.dstName = i2.dstName ∧
      (∃ n, i1.dstName = pfx ++ Nat.repr n ∧ i1.dstName ∉ devNames w.sb.ns ∧
        ∀ m, m < n → (pfx ++ Nat.repr m) ∈ devNames w.sb.ns) ∧
      (∃ n, i2.dstName = pfx ++ Nat.repr n ∧ i2.dstName ∉ devNames w1.sb.ns ∧
        ∀ m, m < n → (pfx ++ Nat.repr m) ∈ devNames w1.sb.ns) := by
  obtain ⟨dst1, d1, hre1, hsrc1, hif1, hnm1, _⟩ := addInterface_ok_spec f1 src1 pfx o1 w w1 h1
  obtain ⟨dst2, d2, hre2, hsrc2, hif2, hnm2, _⟩ := addInterface_ok_spec f2 src2 pfx o2 w1 w2 h2
  obtain ⟨hfree1, n1, hdst1, hmin1⟩ := resolveDstName_spec _ _ _ hre1
  obtain ⟨hfree2, n2, hdst2, hmin2⟩ := resolveDstName_spec _ _ _ hre2
  have hmem1 : dst1 ∈ devNames w1.sb.ns := by
    rw [hnm1]
    simp
  refine ⟨_, _, hif1, hif2, ?_, ⟨n1, hdst1, hfree1, hmin1⟩, ⟨n2, hdst2, hfree2, hmin2⟩⟩
  intro hc
  simp only at hc
  exact hfree2 (hc ▸ hmem1)

/-- The world after one successful add of veth123 with prefix eth. -/
def w1c : World := (addInterface noFail "veth123" "eth" {} sampleWorld).1

/-- The world after a second successful add of veth124 with prefix eth. -/
def w2c : World := (addInterface noFail "veth124" "eth" {} w1c).1

/-- Witness for C3 at a concrete world: the two appended interfaces carry
distinct resolved names. -/
theorem addInterface_same_prefix_distinct_witness :
    ∃ i1 i2, w1c.sb.ifaces = sampleWorld.sb.ifaces ++ [i1] ∧
      w2c.sb.ifaces = w1c.sb.ifaces ++ [i2] ∧ ¬ i1.dstName = i2.dstName := by
  obtain ⟨i1, i2, a, b, c, _, _⟩ := addInterface_same_prefix_distinct noFail noFail
    "veth123" "veth124" "eth" {} {} sampleWorld w1c w2c (by decide) (by decide)
  exact ⟨i1, i2, a, b, c⟩

/-- A concrete static route used in witnesses. -/
def sampleRoute : StaticRoute :=
  { destination := { ip := "192.168.1.0", maskBits := 24 }, nextHop := some "10.0.0.1",
    ifaceHint := none }

/-- C7: AddStaticRoute is idempotent on duplicates — a second add of the
same destination-plus-gateway key returns no error and changes nothing, and
the set then holds exactly one instance of that key — while RemoveStaticRoute
of an absent route fails with notFound. -/
theorem addStaticRoute_idempotent (r : StaticRoute) (w : World)
    (hst : ¬ w.sb.state = SbState.destroyed)
    (hcnt : (w.sb.staticRoutes.filter (fun x => routeKey x = routeKey r)).length ≤ 1) :
    (addStaticRoute r w).2 = none ∧
    addStaticRoute r (addStaticRoute r w).1 = ((addStaticRoute r w).1, none) ∧
    ((addStaticRoute r w).1.sb.staticRoutes.filter
        (fun x => routeKey x = routeKey r)).length = 1 ∧
    ((∀ x ∈ w.sb.staticRoutes, ¬ routeKey x = routeKey r) →
      removeStaticRoute r w = (w, some Err.notFound)) := by
  by_cases hdup : w.sb.staticRoutes.any (fun x => routeKey x = routeKey r)
  · obtain ⟨x, hx, hkey⟩ := List.any_eq_true.mp hdup
    have hmemf : x ∈ w.sb.staticRoutes.filter (fun y => routeKey y = routeKey r) :=
      List.mem_filter.mpr ⟨hx, hkey⟩
    have hpos : 0 < (w.sb.staticRoutes.filter (fun y => routeKey y = routeKey r)).length :=
      List.length_pos.mpr (fun hnil => by rw [hnil] at hmemf; cases hmemf)
    refine ⟨?_, ?_, ?_, ?_⟩
    · simp [addStaticRoute, if_neg hst, hdup]
    · simp [addStaticRoute, if_neg hst, hdup]
    · simp only [addStaticRoute, if_neg hst, hdup, if_true]
      exact Nat.le_antisymm hcnt hpos
    · intro hnone
      exact absurd (of_decide_eq_true hkey) (hnone x hx)
  · have hfilnil : w.sb.staticRoutes.filter (fun x => routeKey x = routeKey r) = [] := by
      rw [List.filter_eq_nil_iff]
      intro a ha hk
      exact hdup (List.any_eq_true.mpr ⟨a, ha, hk⟩)
    refine ⟨?_, ?_, ?_, ?_⟩
    · simp [addStaticRoute, if_neg hst, hdup]
    · simp [addStaticRoute, hst, hdup, List.any_append]
    · simp [addStaticRoute, hst, hdup, List.filter_append, hfilnil]
    · intro hnone
      simp [removeStaticRoute, if_neg hst, hdup]

/-- Witness for C7 at a concrete sandbox and route. -/
theorem addStaticRoute_idempotent_witness :
    (addStaticRoute sampleRoute sampleWorld).2 = none ∧
    addStaticRoute sampleRoute (addStaticRoute sampleRoute sampleWorld).1
      = ((addStaticRoute sampleRoute sampleWorld).1, none) ∧
    ((addStaticRoute sampleRoute sampleWorld).1.sb.staticRoutes.filter
        (fun x => routeKey x = routeKey sampleRoute)).length = 1 ∧
    removeStaticRoute sampleRoute sampleWorld = (sampleWorld, some Err.notFound) := by
  obtain ⟨a, b, c, d⟩ := addStaticRoute_idempotent sampleRoute sampleWorld
    (by decide) (by decide)
  exact ⟨a, b, c, d (by decide)⟩

theorem filter_remove_self (f : Fam) (l : List (Fam × IP)) :
    (l.filter (fun rt => ¬ rt.1 = f)).filter (fun rt => rt.1 = f) = [] := by
  induction l with
  | nil => rfl
  | cons a rest ih =>
    obtain ⟨fam, ip⟩ := a
    by_cases hf : fam = f
    · simp [hf, ih]
    · simp [hf, ih]

theorem filter_remove_ne (f g : Fam) (hne : ¬ g = f) (l : List (Fam × IP)) :
    (l.filter (fun rt => ¬ rt.1 = f)).filter (fun rt => rt.1 = g)
      = l.filter (fun rt => rt.1 = g) := by
  induction l with
  | nil => rfl
  | cons a rest ih =>
    obtain ⟨fam, ip⟩ := a
    by_cases hf : fam = f
    · have hg' : ¬ fam = g := fun hc => hne (hc.symm.trans hf)
      rw [List.filter_cons_of_neg (by simp [hf]), List.filter_cons_of_neg (by simp [hg']), ih]
    · by_cases hg : fam = g
      · rw [List.filter_cons_of_pos (by simp [hf]), List.filter_cons_of_pos (by simp [hg]),
          List.filter_cons_of_pos (by simp [hg]), ih]
      · rw [List.filter_cons_of_pos (by simp [hf]), List.filter_cons_of_neg (by simp [hg]),
          List.filter_cons_of_neg (by simp [hg]), ih]

/-- The single-default-route invariant of claim C4: in each address family,
the default routes installed in the sandbox namespace are exactly the
configured gateway of that family. -/
def GwInv (w : World) : Prop :=
  famDefaults Fam.v4 w.sb.ns = w.sb.gatewayV4.elim [] (fun g => [g]) ∧
  famDefaults Fam.v6 w.sb.ns = w.sb.gatewayV6.elim [] (fun g => [g])

theorem gwInv_setGateway (gw : IP) (w : World) (h : GwInv w) :
    GwInv (setGateway gw w).1 := by
  obtain ⟨h4, h6⟩ := h
  unfold setGateway
  split
  · exact ⟨h4, h6⟩
  · cases hg : w.sb.gatewayV4 with
    | none =>
      constructor
      · simp [famDefaults, List.filter_append, List.map_append]
        simpa [famDefaults, hg] using h4
      · simp only [famDefaults, List.filter_append] at h6 ⊢
        simpa using h6
    | some old =>
      constructor
      · simp only [famDefaults, List.filter_append]
        rw [filter_remove_self Fam.v4 w.sb.ns.defRoutes]
        simp
      · simp only [famDefaults, List.filter_append]
        rw [filter_remove_ne Fam.v4 Fam.v6 (by simp) w.sb.ns.defRoutes]
        simpa using h6

theorem gwInv_setGatewayIPv6 (gw : IP) (w : World) (h : GwInv w) :
    GwInv (setGatewayIPv6 gw w).1 := by
  obtain ⟨h4, h6⟩ := h
  unfold setGatewayIPv6
  split
  · exact ⟨h4, h6⟩
  · cases hg : w.sb.gatewayV6 with
    | none =>
      constructor
      · simp only [famDefaults, List.filter_append] at h4 ⊢
        simpa using h4
      · simp [famDefaults, List.filter_append, List.map_append]
        simpa [famDefaults, hg] using h6
    | some old =>
      constructor
      · simp only [famDefaults, List.filter_append]
        rw [filter_remove_ne Fam.v6 Fam.v4 (by simp) w.sb.ns.defRoutes]
        simpa using h4
      · simp only [famDefaults, List.filter_append]
        rw [filter_remove_self Fam.v6 w.sb.ns.defRoutes]
        simp

theorem gwInv_unsetGateway (w : World) (h : GwInv w) :
    GwInv (unsetGateway w).1 := by
  obtain ⟨h4, h6⟩ := h
  unfold unsetGateway
  split
  · exact ⟨h4, h6⟩
  · cases hg : w.sb.gatewayV4 with
    | none => exact ⟨h4, h6⟩
    | some old =>
      constructor
      · simp only [famDefaults]
        rw [filter_remove_self Fam.v4 w.sb.ns.defRoutes]
        simp
      · simp only [famDefaults]
        rw [filter_remove_ne Fam.v4 Fam.v6 (by simp) w.sb.ns.defRoutes]
        simpa using h6

theorem gwInv_unsetGatewayIPv6 (w : World) (h : GwInv w) :
    GwInv (unsetGatewayIPv6 w).1 := by
  obtain ⟨h4, h6⟩ := h
  unfold unsetGatewayIPv6
  split
  · exact ⟨h4, h6⟩
  · cases hg : w.sb.gatewayV6 with
    | none => exact ⟨h4, h6⟩
    | some old =>
      constructor
      · simp only [famDefaults]
        rw [filter_remove_ne Fam.v6 Fam.v4 (by simp) w.sb.ns.defRoutes]
        simpa using h4
      · simp only [famDefaults]
        rw [filter_remove_self Fam.v6 w.sb.ns.defRoutes]
        simp

theorem gwInv_addStaticRoute (r : StaticRoute) (w : World) (h : GwInv w) :
    GwInv (addStaticRoute r w).1 := by
  unfold addStaticRoute
  split
  · exact h
  · split
    · exact h
    · exact h

theorem gwInv_removeStaticRoute (r : StaticRoute) (w : World) (h : GwInv w) :
    GwInv (removeStaticRoute r w).1 := by
  unfold removeStaticRoute
  split
  · exact h
  · split
    · exact h
    · exact h

theorem gwInv_destroy (failRm : String → Bool) (w : World) (h : GwInv w) :
    GwInv (destroy failRm w).1 := by
  unfold destroy
  split
  · exact h
  · exact ⟨rfl, rfl⟩

theorem famDefaults_congr (fam : Fam) (ns ns' : Ns)
    (h : ns'.defRoutes = ns.defRoutes) : famDefaults fam ns' = famDefaults fam ns := by
  unfold famDefaults
  rw [h]

theorem gwInv_addInterface (f : Step → Bool) (src pfx : String) (o : IfaceOptions)
    (w : World) (h : GwInv w) : GwInv (addInterface f src pfx o w).1 := by
  rcases hres : addInterface f src pfx o w with ⟨w', eo⟩
  cases eo with
  | none =>
    obtain ⟨dst, d, _, _, _, _, _, _, hg4, hg6, _, hdr⟩ :=
      addInterface_ok_spec f src pfx o w w' hres
    obtain ⟨h4, h6⟩ := h
    constructor
    · rw [famDefaults_congr Fam.v4 w.sb.ns w'.sb.ns hdr, hg4]
      exact h4
    · rw [famDefaults_congr Fam.v6 w.sb.ns w'.sb.ns hdr, hg6]
      exact h6
  | some e =>
    obtain ⟨hsb, _, _⟩ := addInterface_err_state f src pfx o w w' e hres
    show GwInv w'
    unfold GwInv
    rw [hsb]
    exact h

theorem gwInv_applyOp (op : SbOp) (w : World) (h : GwInv w) : GwInv (applyOp op w).1 := by
  cases op with
  | addIface f src pfx o => exact gwInv_addInterface f src pfx o w h
  | setGw gw => exact gwInv_setGateway gw w h
  | setGw6 gw => exact gwInv_setGatewayIPv6 gw w h
  | unsetGw => exact gwInv_unsetGateway w h
  | unsetGw6 => exact gwInv_unsetGatewayIPv6 w h
  | addRoute r => exact gwInv_addStaticRoute r w h
  | rmRoute r => exact gwInv_removeStaticRoute r w h
  | destroyOp failRm => exact gwInv_destroy failRm w h

theorem gwInv_runOps (ops : List SbOp) : ∀ w, GwInv w → GwInv (runOps ops w) := by
  induction ops with
  | nil => intro w h; exact h
  | cons op rest ih =>
    intro w h
    exact ih (applyOp op w).1 (gwInv_applyOp op w h)

theorem setGateway_sets (gw : IP) (w : World) (h : ¬ w.sb.state = SbState.destroyed) :
    (setGateway gw w).1.sb.gatewayV4 = some gw ∧
    (setGateway gw w).1.sb.state = SbState.active := by
  unfold setGateway
  rw [if_neg h]
  exact ⟨rfl, rfl⟩

/-- C4: under any sequence of sandbox operations the single-default-route
invariant is preserved, so each family has at most one active default route;
in particular SetGateway with A followed by SetGateway with B leaves exactly
one IPv4 default route, pointing at B. -/
theorem setGateway_single_default_route :
    (∀ op w, GwInv w → GwInv (applyOp op w).1) ∧
    (∀ ops w, GwInv w → GwInv (runOps ops w)) ∧
    (∀ w, GwInv w → (famDefaults Fam.v4 w.sb.ns).length ≤ 1 ∧
      (famDefaults Fam.v6 w.sb.ns).length ≤ 1) ∧
    (∀ a b w, GwInv w → ¬ w.sb.state = SbState.destroyed →
      famDefaults Fam.v4 (setGateway b (setGateway a w).1).1.sb.ns = [b]) := by
  refine ⟨gwInv_applyOp, fun ops w h => gwInv_runOps ops w h, ?_, ?_⟩
  · intro w h
    obtain ⟨h4, h6⟩ := h
    constructor
    · rw [h4]
      cases w.sb.gatewayV4 <;> simp
    · rw [h6]
      cases w.sb.gatewayV6 <;> simp
  · intro a b w hGw hdes
    have h1 := setGateway_sets a w hdes
    have hInv1 := gwInv_setGateway a w hGw
    have hdes1 : ¬ (setGateway a w).1.sb.state = SbState.destroyed := by
      rw [h1.2]
      simp
    have h2 := setGateway_sets b (setGateway a w).1 hdes1
    have hInv2 := gwInv_setGateway b (setGateway a w).1 hInv1
    have := hInv2.1
    rw [h2.1] at this
    exact this

/-- Witness for C4 at a concrete sandbox: setting gateway 10.0.0.1 and then
10.0.0.2 leaves exactly the IPv4 default route via 10.0.0.2. -/
theorem setGateway_single_default_route_witness :
    famDefaults Fam.v4 ((setGateway "10.0.0.2" (setGateway "10.0.0.1" sampleWorld).1).1.sb.ns)
      = ["10.0.0.2"] :=
  setGateway_single_default_route.2.2.2 "10.0.0.1" "10.0.0.2" sampleWorld ⟨rfl, rfl⟩
    (by decide)

/-- C6: the lifecycle is a state machine with destroyed terminal — every
mutating operation on a destroyed sandbox fails with invalidState and leaves
the world untouched (never a silent no-op), while a successful Destroy moves
a live sandbox to the destroyed state with no tracked interfaces left. -/
theorem sandbox_lifecycle_terminal :
    (∀ op w, w.sb.state = SbState.destroyed → applyOp op w = (w, some Err.invalidState)) ∧
    (∀ failRm w, ¬ w.sb.state = SbState.destroyed →
      (destroy failRm w).1.sb.state = SbState.destroyed ∧
      (destroy failRm w).1.sb.ifaces = []) := by
  constructor
  · intro op w h
    cases op with
    | addIface f src pfx o => simp [applyOp, addInterface, h]
    | setGw gw => simp [applyOp, setGateway, h]
    | setGw6 gw => simp [applyOp, setGatewayIPv6, h]
    | unsetGw => simp [applyOp, unsetGateway, h]
    | unsetGw6 => simp [applyOp, unsetGatewayIPv6, h]
    | addRoute r => simp [applyOp, addStaticRoute, h]
    | rmRoute r => simp [applyOp, removeStaticRoute, h]
    | destroyOp failRm => simp [applyOp, destroy, h]
  · intro failRm w h
    unfold destroy
    rw [if_neg h]
    exact ⟨rfl, rfl⟩

/-- A destroyed sandbox obtained by destroying the concrete sample world. -/
def destroyedWorld : World := (destroy (fun _ => false) sampleWorld).1

/-- Witness for C6: on the concrete destroyed world a SetGateway call fails
with invalidState and changes nothing, and destroying the live sample world
does reach the destroyed state. -/
theorem sandbox_lifecycle_terminal_witness :
    applyOp (SbOp.setGw "10.0.0.1") destroyedWorld
      = (destroyedWorld, some Err.invalidState) ∧
    (destroy (fun _ => false) sampleWorld).1.sb.state = SbState.destroyed := by
  constructor
  · exact sandbox_lifecycle_terminal.1 (SbOp.setGw "10.0.0.1") destroyedWorld (by decide)
  · exact (sandbox_lifecycle_terminal.2 (fun _ => false) sampleWorld (by decide)).1

theorem origDev_name (ns : Ns) (i : Iface) : (origDev ns i).name = i.srcName := by
  unfold origDev
  split <;> rfl

theorem destroyLoop_errs (failRm : String → Bool) :
    ∀ l w, (destroyLoop failRm l w).2
      = (l.filter (fun i => failRm i.dstName)).map Iface.dstName := by
  intro l
  induction l with
  | nil => intro w; rfl
  | cons i rest ih =>
    intro w
    by_cases hf : failRm i.dstName
    · simp only [destroyLoop, moveBack, hf, if_true]
      rw [List.filter_cons_of_pos (by simp [hf])]
      simp [ih]
    · simp only [destroyLoop, moveBack, hf, if_false]
      rw [List.filter_cons_of_neg (by simp [hf])]
      simp [ih]

theorem destroyLoop_host_mono (failRm : String → Bool) :
    ∀ l w d, d ∈ w.host.devs → d ∈ (destroyLoop failRm l w).1.host.devs := by
  intro l
  induction l with
  | nil => intro w d h; exact h
  | cons i rest ih =>
    intro w d h
    by_cases hf : failRm i.dstName
    · simp only [destroyLoop, moveBack, hf, if_true]
      exact ih _ d h
    · simp only [destroyLoop, moveBack, hf, if_false]
      exact ih _ d (by simp [addDev]; exact Or.inl h)
  
theorem destroyLoop_restores (failRm : String → Bool) :
    ∀ l w i, i ∈ l → ¬ failRm i.dstName →
      ∃ d ∈ (destroyLoop failRm l w).1.host.devs, d.name = i.srcName := by
  intro l
  induction l with
  | nil => intro w i h; cases h
  | cons j rest ih =>
    intro w i hmem hnf
    cases hmem with
    | head =>
      have hf : failRm j.dstName = false := by simpa using hnf
      simp only [destroyLoop, moveBack, hf, if_false, Bool.false_eq_true]
      refine ⟨origDev w.sb.ns j, ?_, origDev_name w.sb.ns j⟩
      apply destroyLoop_host_mono
      simp [addDev]
    | tail _ hrest =>
      by_cases hf : failRm j.dstName
      · simp only [destroyLoop, moveBack, hf, if_true]
        exact ih _ i hrest hnf
      · simp only [destroyLoop, moveBack, hf, if_false, Bool.false_eq_true]
        exact ih _ i hrest hnf

/-- C5: Destroy is best effort — it attempts every interface even when some
removals fail, every non-failing interface is restored to the host under its
source name, the sandbox ends destroyed with no interfaces, and all
sub-failures are aggregated into one combined error naming the failing
interfaces. -/
theorem destroy_best_effort (failRm : String → Bool) (w : World)
    (h : ¬ w.sb.state = SbState.destroyed) :
    (destroy failRm w).1.sb.state = SbState.destroyed ∧
    (destroy failRm w).1.sb.ifaces = [] ∧
    (∀ i ∈ w.sb.ifaces, ¬ failRm i.dstName →
      ∃ d ∈ (destroy failRm w).1.host.devs, d.name = i.srcName) ∧
    (destroy failRm w).2
      = (if (w.sb.ifaces.filter (fun i => failRm i.dstName)).isEmpty then none
         else some (Err.combined
           ((w.sb.ifaces.filter (fun i => failRm i.dstName)).map Iface.dstName))) := by
  unfold destroy
  rw [if_neg h]
  refine ⟨rfl, rfl, ?_, ?_⟩
  · intro i hmem hnf
    exact destroyLoop_restores failRm w.sb.ifaces w i hmem hnf
  · have he := destroyLoop_errs failRm w.sb.ifaces w
    change (if ((destroyLoop failRm w.sb.ifaces w).2).isEmpty = true then none
            else some (Err.combined (destroyLoop failRm w.sb.ifaces w).2)) = _
    rw [he]
    cases hfe : List.filter (fun i => failRm i.dstName) w.sb.ifaces with
    | nil => simp
    | cons a l => simp

/-- Tracked interface records of a three-interface sandbox. -/
def ifA : Iface :=
  { srcName := "veth1", dstName := "eth0", addressV4 := none, addressV6 := none, routes := [] }

/-- Second tracked interface record. -/
def ifB : Iface :=
  { srcName := "veth2", dstName := "eth1", addressV4 := none, addressV6 := none, routes := [] }

/-- Third tracked interface record. -/
def ifC : Iface :=
  { srcName := "veth3", dstName := "eth2", addressV4 := none, addressV6 := none, routes := [] }

/-- The sandbox-side device of the first moved interface. -/
def devEth0 : NetDev := { name := "eth0", addrV4 := none, addrV6 := none, devRoutes := [] }

/-- The sandbox-side device of the second moved interface. -/
def devEth1 : NetDev := { name := "eth1", addrV4 := none, addrV6 := none, devRoutes := [] }

/-- The sandbox-side device of the third moved interface. -/
def devEth2 : NetDev := { name := "eth2", addrV4 := none, addrV6 := none, devRoutes := [] }

/-- A live sandbox holding three moved interfaces. -/
def threeIfaceWorld : World :=
  { host := { devs := [], defRoutes := [] },
    sb := { key := "/var/run/netns/sbx2", ifaces := [ifA, ifB, ifC],
            gatewayV4 := none, gatewayV6 := none, staticRoutes := [],
            state := SbState.active,
            ns := { devs := [loDev, devEth0, devEth1, devEth2], defRoutes := [] } } }

/-- A teardown fault oracle under which only eth1 fails to move back. -/
def failSecond : String → Bool := fun s => s = "eth1"

/-- Witness for C5: destroying the three-interface sandbox where the second
interface fails to move back still restores interfaces one and three to the
host and reports a combined error naming the second. -/
theorem destroy_best_effort_witness :
    (destroy failSecond threeIfaceWorld).1.sb.ifaces = [] ∧
    (∃ d ∈ (destroy failSecond threeIfaceWorld).1.host.devs, d.name = ifA.srcName) ∧
    (∃ d ∈ (destroy failSecond threeIfaceWorld).1.host.devs, d.name = ifC.srcName) ∧
    (destroy failSecond threeIfaceWorld).2
      = (if (threeIfaceWorld.sb.ifaces.filter (fun i => failSecond i.dstName)).isEmpty
         then none
         else some (Err.combined
           ((threeIfaceWorld.sb.ifaces.filter
               (fun i => failSecond i.dstName)).map Iface.dstName))) := by
  obtain ⟨a, b, c, d⟩ := destroy_best_effort failSecond threeIfaceWorld (by decide)
  exact ⟨b, c ifA (by decide) (by decide), c ifC (by decide) (by decide), d⟩

/-- Modelled from the spec (sections 4.1 and 4.4): the process-wide registry
mapping sandbox key to the identifier of its live namespace, together with a
fresh-namespace counter. -/
structure Registry where
  table : List (String × Nat)
  nextNs : Nat
deriving DecidableEq, Repr

/-- Look up the live sandbox for a key. -/
def regLookup (r : Registry) (key : String) : Option Nat :=
  (r.table.find? (fun e => e.1 = key)).map Prod.snd

/-- Modelled from the spec (section 4.4): request the sandbox for a key —
an existing live entry is returned as is, otherwise a fresh namespace is
created and registered. -/
def getSandbox (r : Registry) (key : String) : Registry × Nat :=
  match regLookup r key with
  | some id => (r, id)
  | none => ({ table := r.table ++ [(key, r.nextNs)], nextNs := r.nextNs + 1 }, r.nextNs)

/-- Modelled from the spec (section 4.4): destroy the sandbox for a key; the
entry is removed only when the teardown (fault flag `fail`) succeeds. -/
def destroySandbox (fail : Bool) (r : Registry) (key : String) : Registry × Option Err :=
  match regLookup r key with
  | none => (r, some Err.notFound)
  | some _ =>
    if fail then (r, some (Err.underlying "teardown failed"))
    else ({ r with table := r.table.filter (fun e => ¬ e.1 = key) }, none)

/-- The keys registered in a registry. -/
def regKeys (r : Registry) : List String :=
  r.table.map Prod.fst

/-- C2: at most one live sandbox exists per key — re-requesting a live key
returns the same sandbox with the registry (and its namespace counter)
untouched, a failed destroy leaves the entry in place, a successful destroy
removes it, and key uniqueness is preserved by both operations. -/
theorem registry_one_sandbox_per_key :
    (∀ r key id, regLookup r key = some id → getSandbox r key = (r, id)) ∧
    (∀ fail r key r' e, destroySandbox fail r key = (r', some e) → r' = r) ∧
    (∀ r key, ¬ regLookup r key = none →
      (destroySandbox false r key).2 = none ∧
      regLookup (destroySandbox false r key).1 key = none) ∧
    (∀ r key, (regKeys r).Nodup →
      (regKeys (getSandbox r key).1).Nodup ∧
      ∀ fail, (regKeys (destroySandbox fail r key).1).Nodup) := by
  refine ⟨?_, ?_, ?_, ?_⟩
  · intro r key id h
    unfold getSandbox
    rw [h]
  · intro fail r key r' e h
    unfold destroySandbox at h
    split at h
    · injection h with h1 h2
      exact h1.symm
    · split at h
      · injection h with h1 h2
        exact h1.symm
      · injection h with h1 h2
        cases h2
  · intro r key h
    cases hl : regLookup r key with
    | none => exact absurd hl h
    | some id =>
      unfold destroySandbox
      rw [hl]
      simp only [if_neg Bool.false_ne_true]
      constructor
      · trivial
      · show ((r.table.filter (fun e => ¬ e.1 = key)).find? (fun e => e.1 = key)).map
          Prod.snd = none
        have : (r.table.filter (fun e => ¬ e.1 = key)).find? (fun e => e.1 = key) = none := by
          rw [List.find?_eq_none]
          intro x hx
          have := (List.mem_filter.mp hx).2
          simpa using this
        rw [this]
        rfl
  · intro r key hnd
    constructor
    · unfold getSandbox
      cases hl : regLookup r key with
      | some id => exact hnd
      | none =>
        have hfind : r.table.find? (fun e => e.1 = key) = none := by
          unfold regLookup at hl
          cases hc : r.table.find? (fun e => e.1 = key) with
          | none => rfl
          | some x => rw [hc] at hl; cases hl
        have hkey : key ∉ regKeys r := by
          intro hmem
          obtain ⟨e, he, hek⟩ := List.mem_map.mp hmem
          have hne := List.find?_eq_none.mp hfind e he
          simp [hek] at hne
        show ((r.table ++ [(key, r.nextNs)]).map Prod.fst).Nodup
        rw [List.map_append]
        rw [List.nodup_append]
        refine ⟨hnd, List.nodup_singleton key, ?_⟩
        intro a ha hb
        simp at hb
        subst hb
        exact hkey ha
    · intro fail
      unfold destroySandbox
      cases hl : regLookup r key with
      | none => exact hnd
      | some id =>
        by_cases hf : fail = true
        · simp only [hf, if_true]
          exact hnd
        · simp only [hf, if_false]
          have hsub : ((r.table.filter (fun e => ¬ e.1 = key)).map Prod.fst).Sublist
              (r.table.map Prod.fst) :=
            (List.filter_sublist r.table).map Prod.fst
          exact hnd.sublist hsub

/-- A concrete registry holding one live sandbox. -/
def sampleRegistry : Registry := { table := [("/var/run/netns/sbx1", 0)], nextNs := 1 }

/-- Witness for C2 on a concrete registry: re-requesting the live key
returns the same sandbox and registry, a failed destroy keeps the entry,
and a successful destroy removes it. -/
theorem registry_one_sandbox_per_key_witness :
    getSandbox sampleRegistry "/var/run/netns/sbx1" = (sampleRegistry, 0) ∧
    (destroySandbox true sampleRegistry "/var/run/netns/sbx1").1 = sampleRegistry ∧
    regLookup (destroySandbox false sampleRegistry "/var/run/netns/sbx1").1
      "/var/run/netns/sbx1" = none := by
  refine ⟨?_, ?_, ?_⟩
  · exact registry_one_sandbox_per_key.1 sampleRegistry "/var/run/netns/sbx1" 0 (by decide)
  · exact registry_one_sandbox_per_key.2.1 true sampleRegistry "/var/run/netns/sbx1"
      (destroySandbox true sampleRegistry "/var/run/netns/sbx1").1
      (Err.underlying "teardown failed") (by decide)
  · exact (registry_one_sandbox_per_key.2.2.1 sampleRegistry "/var/run/netns/sbx1"
      (by decide)).2

/-- The empty snapshot, used as the default heap value. -/
def emptyView : InfoView :=
  { interfaces := [], gateway := none, gatewayIPv6 := none, staticRoutes := [] }

/-- Modelled from the spec (section 4.3): to state that Info returns copies
rather than live references, snapshot data lives behind references into an
explicit heap of snapshot values. -/
abbrev Heap := List InfoView

/-- Read the value a reference points at. -/
def readRef (h : Heap) (r : Nat) : InfoView := h.getD r emptyView

/-- Overwrite the value a reference points at (a caller-side mutation). -/
def writeRef (h : Heap) (r : Nat) (v : InfoView) : Heap := h.set r v

/-- Allocate a fresh reference holding a value. -/
def allocRef (h : Heap) (v : InfoView) : Heap × Nat := (h ++ [v], h.length)

/-- A sandbox whose internal state is held behind a heap reference. -/
structure RefSandbox where
  ref : Nat
deriving DecidableEq, Repr

/-- Modelled from the spec (section 4.3): `Info` returns a copy — it
allocates a fresh reference holding a copy of the sandbox state. -/
def infoRef (s : RefSandbox) (h : Heap) : Heap × Nat :=
  allocRef h (readRef h s.ref)

/-- A sandbox mutating operation acting through the sandbox's own
reference. -/
def sbOpRef (g : InfoView → InfoView) (s : RefSandbox) (h : Heap) : Heap :=
  writeRef h s.ref (g (readRef h s.ref))

theorem infoRef_reads (s : RefSandbox) (h : Heap) :
    readRef (infoRef s h).1 (infoRef s h).2 = readRef h s.ref := by
  show readRef (h ++ [readRef h s.ref]) h.length = readRef h s.ref
  rw [readRef, List.getD_eq_getElem?_getD, List.getElem?_concat_length]
  rfl

theorem readRef_write_other (h : Heap) (i j : Nat) (v : InfoView) (hne : ¬ i = j) :
    readRef (writeRef h i v) j = readRef h j := by
  rw [readRef, readRef, writeRef, List.getD_eq_getElem?_getD, List.getD_eq_getElem?_getD,
    List.getElem?_set_ne hne]

theorem readRef_append_lt (h : Heap) (x : InfoView) (j : Nat) (hj : j < h.length) :
    readRef (h ++ [x]) j = readRef h j := by
  rw [readRef, readRef, List.getD_eq_getElem?_getD, List.getD_eq_getElem?_getD,
    List.getElem?_append, if_pos hj]

theorem readRef_write_self (h : Heap) (i : Nat) (v : InfoView) (hi : i < h.length) :
    readRef (writeRef h i v) i = v := by
  rw [readRef, writeRef, List.getD_eq_getElem?_getD, List.getElem?_set_self hi]
  rfl

/-- C8: Info returns a snapshot made of copies, not live references — the
returned reference is distinct from the sandbox's, holds the same data, any
caller mutation through it leaves the sandbox state unchanged, and a later
Info reflects exactly the mutations made through the sandbox's own
operations. -/
theorem info_returns_copies (s : RefSandbox) (h : Heap) (hs : s.ref < h.length) :
    ¬ (infoRef s h).2 = s.ref ∧
    readRef (infoRef s h).1 (infoRef s h).2 = readRef h s.ref ∧
    (∀ v, readRef (writeRef (infoRef s h).1 (infoRef s h).2 v) s.ref = readRef h s.ref) ∧
    (∀ v g, readRef (sbOpRef g s (writeRef (infoRef s h).1 (infoRef s h).2 v)) s.ref
        = g (readRef h s.ref) ∧
      readRef (infoRef s (sbOpRef g s (writeRef (infoRef s h).1 (infoRef s h).2 v))).1
          (infoRef s (sbOpRef g s (writeRef (infoRef s h).1 (infoRef s h).2 v))).2
        = g (readRef h s.ref)) := by
  have hne : ¬ (infoRef s h).2 = s.ref := by
    show ¬ h.length = s.ref
    intro hc
    rw [hc] at hs
    exact Nat.lt_irrefl s.ref hs
  have hread : ∀ v, readRef (writeRef (infoRef s h).1 (infoRef s h).2 v) s.ref
      = readRef h s.ref := by
    intro v
    rw [readRef_write_other (infoRef s h).1 (infoRef s h).2 s.ref v hne]
    exact readRef_append_lt h (readRef h s.ref) s.ref hs
  have hlen : ∀ v, s.ref < (writeRef (infoRef s h).1 (infoRef s h).2 v).length := by
    intro v
    show s.ref < ((h ++ [readRef h s.ref]).set h.length v).length
    rw [List.length_set, List.length_append]
    exact Nat.lt_of_lt_of_le hs (Nat.le_add_right h.length 1)
  have hop : ∀ v g, readRef (sbOpRef g s (writeRef (infoRef s h).1 (infoRef s h).2 v)) s.ref
      = g (readRef h s.ref) := by
    intro v g
    unfold sbOpRef
    rw [readRef_write_self _ s.ref _ (hlen v), hread v]
  refine ⟨hne, infoRef_reads s h, hread, ?_⟩
  intro v g
  refine ⟨hop v g, ?_⟩
  rw [infoRef_reads s (sbOpRef g s (writeRef (infoRef s h).1 (infoRef s h).2 v))]
  exact hop v g

/-- A concrete one-cell heap whose cell holds the empty snapshot. -/
def sampleHeap : Heap := [emptyView]

/-- Witness for C8 on a concrete heap: the view returned by Info is a fresh
reference and overwriting it leaves the sandbox state readable unchanged. -/
theorem info_returns_copies_witness :
    ¬ (infoRef ⟨0⟩ sampleHeap).2 = (0 : Nat) ∧
    readRef (writeRef (infoRef ⟨0⟩ sampleHeap).1 (infoRef ⟨0⟩ sampleHeap).2
        { interfaces := [ifA], gateway := none, gatewayIPv6 := none, staticRoutes := [] })
      (0 : Nat) = readRef sampleHeap 0 := by
  obtain ⟨a, b, c, d⟩ := info_returns_copies ⟨0⟩ sampleHeap (by decide)
  exact ⟨a, c _⟩

/-- The configuration-only sandbox operations: those that neither add an
interface nor destroy the sandbox. -/
def isCfgOp : SbOp → Prop
  | SbOp.addIface _ _ _ _ => False
  | SbOp.destroyOp _ => False
  | _ => True

theorem setGateway_frame (gw : IP) (w : World) :
    (setGateway gw w).1.sb.ifaces = w.sb.ifaces ∧
    (setGateway gw w).1.sb.ns.devs = w.sb.ns.devs := by
  unfold setGateway
  split
  · exact ⟨rfl, rfl⟩
  · cases hg : w.sb.gatewayV4 with
    | none => exact ⟨rfl, rfl⟩
    | some old => exact ⟨rfl, rfl⟩

theorem setGatewayIPv6_frame (gw : IP) (w : World) :
    (setGatewayIPv6 gw w).1.sb.ifaces = w.sb.ifaces ∧
    (setGatewayIPv6 gw w).1.sb.ns.devs = w.sb.ns.devs := by
  unfold setGatewayIPv6
  split
  · exact ⟨rfl, rfl⟩
  · cases hg : w.sb.gatewayV6 with
    | none => exact ⟨rfl, rfl⟩
    | some old => exact ⟨rfl, rfl⟩

theorem unsetGateway_frame (w : World) :
    (unsetGateway w).1.sb.ifaces = w.sb.ifaces ∧
    (unsetGateway w).1.sb.ns.devs = w.sb.ns.devs := by
  unfold unsetGateway
  split
  · exact ⟨rfl, rfl⟩
  · cases hg : w.sb.gatewayV4 with
    | none => exact ⟨rfl, rfl⟩
    | some old => exact ⟨rfl, rfl⟩

theorem unsetGatewayIPv6_frame (w : World) :
    (unsetGatewayIPv6 w).1.sb.ifaces = w.sb.ifaces ∧
    (unsetGatewayIPv6 w).1.sb.ns.devs = w.sb.ns.devs := by
  unfold unsetGatewayIPv6
  split
  · exact ⟨rfl, rfl⟩
  · cases hg : w.sb.gatewayV6 with
    | none => exact ⟨rfl, rfl⟩
    | some old => exact ⟨rfl, rfl⟩

theorem addStaticRoute_frame (r : StaticRoute) (w : World) :
    (addStaticRoute r w).1.sb.ifaces = w.sb.ifaces ∧
    (addStaticRoute r w).1.sb.ns.devs = w.sb.ns.devs := by
  unfold addStaticRoute
  split
  · exact ⟨rfl, rfl⟩
  · split
    · exact ⟨rfl, rfl⟩
    · exact ⟨rfl, rfl⟩

theorem removeStaticRoute_frame (r : StaticRoute) (w : World) :
    (removeStaticRoute r w).1.sb.ifaces = w.sb.ifaces ∧
    (removeStaticRoute r w).1.sb.ns.devs = w.sb.ns.devs := by
  unfold removeStaticRoute
  split
  · exact ⟨rfl, rfl⟩
  · split
    · exact ⟨rfl, rfl⟩
    · exact ⟨rfl, rfl⟩

theorem cfgOp_preserves (op : SbOp) (hop : isCfgOp op) (w : World) :
    (applyOp op w).1.sb.ifaces = w.sb.ifaces ∧
    (applyOp op w).1.sb.ns.devs = w.sb.ns.devs := by
  cases op with
  | addIface f src pfx o => cases hop
  | destroyOp failRm => cases hop
  | setGw gw => exact setGateway_frame gw w
  | setGw6 gw => exact setGatewayIPv6_frame gw w
  | unsetGw => exact unsetGateway_frame w
  | unsetGw6 => exact unsetGatewayIPv6_frame w
  | addRoute r => exact addStaticRoute_frame r w
  | rmRoute r => exact removeStaticRoute_frame r w

/-- The initial world of a freshly created sandbox: an arbitrary host and a
namespace holding only the automatically created loopback device. -/
def initWorld (key : String) (hostDevs : List NetDev) : World :=
  { host := { devs := hostDevs, defRoutes := [] },
    sb := { key := key, ifaces := [], gatewayV4 := none, gatewayV6 := none,
            staticRoutes := [], state := SbState.created,
            ns := { devs := [loDev], defRoutes := [] } } }

/-- The worlds reachable from a freshly created sandbox without destroying
it, together with the trace of interface records appended by the successful
AddInterface calls, in order. -/
inductive LiveReach (w0 : World) : World → List Iface → Prop where
  | init : LiveReach w0 w0 []
  | addOk (f : Step → Bool) (src pfx : String) (o : IfaceOptions) (w w' : World)
      (i : Iface) (tr : List Iface) (h : LiveReach w0 w tr)
      (hadd : addInterface f src pfx o w = (w', none))
      (hifc : w'.sb.ifaces = w.sb.ifaces ++ [i]) : LiveReach w0 w' (tr ++ [i])
  | addFail (f : Step → Bool) (src pfx : String) (o : IfaceOptions) (w w' : World)
      (e : Err) (tr : List Iface) (h : LiveReach w0 w tr)
      (hadd : addInterface f src pfx o w = (w', some e)) : LiveReach w0 w' tr
  | cfgStep (op : SbOp) (w : World) (tr : List Iface) (h : LiveReach w0 w tr)
      (hop : isCfgOp op) : LiveReach w0 (applyOp op w).1 tr

/-- C10: on every world reached from a fresh sandbox, Info lists exactly the
interfaces added through AddInterface, in insertion order — the loopback
device automatically present in the namespace is never among them even
though it stays in the namespace. -/
theorem info_lists_added_interfaces (key : String) (hostDevs : List NetDev)
    (w : World) (tr : List Iface)
    (h : LiveReach (initWorld key hostDevs) w tr) :
    (info w).interfaces = tr ∧ "lo" ∈ devNames w.sb.ns ∧
    (∀ i, i ∈ (info w).interfaces → ¬ i.dstName = "lo") := by
  induction h with
  | init =>
    refine ⟨rfl, by simp [initWorld, devNames, loDev], ?_⟩
    intro i hi
    cases hi
  | addOk f src pfx o w1 w1' i tr1 h1 hadd hifc ih =>
    obtain ⟨ih1, ih2, ih3⟩ := ih
    obtain ⟨dst, d, hre, hsrc, hif, hnm, _⟩ := addInterface_ok_spec f src pfx o w1 w1' hadd
    have hieq : i = ⟨src, dst, o.addressV4, o.addressV6, o.routes.getD []⟩ := by
      simpa using List.append_cancel_left (hifc.symm.trans hif)
    have hfree : dst ∉ devNames w1.sb.ns := (resolveDstName_spec _ _ _ hre).1
    refine ⟨?_, ?_, ?_⟩
    · show w1'.sb.ifaces = tr1 ++ [i]
      rw [hifc]
      have hx : w1.sb.ifaces = tr1 := ih1
      rw [hx]
    · rw [hnm]
      exact List.mem_append_left [dst] ih2
    · intro j hj
      have hj' : j ∈ w1.sb.ifaces ++ [i] := by
        have hx : (info w1').interfaces = w1'.sb.ifaces := rfl
        rw [hx, hifc] at hj
        exact hj
      rcases List.mem_append.mp hj' with hold | hnew
      · exact ih3 j hold
      · have hji : j = i := by simpa using hnew
        subst hji
        rw [hieq]
        intro hc
        simp only at hc
        rw [hc] at hfree
        exact hfree ih2
  | addFail f src pfx o w1 w1' e tr1 h1 hadd ih =>
    obtain ⟨ih1, ih2, ih3⟩ := ih
    obtain ⟨hsb, _, _⟩ := addInterface_err_state f src pfx o w1 w1' e hadd
    refine ⟨?_, ?_, ?_⟩
    · show w1'.sb.ifaces = tr1
      rw [hsb]
      exact ih1
    · show "lo" ∈ devNames w1'.sb.ns
      rw [hsb]
      exact ih2
    · intro j hj
      have hjm : j ∈ w1.sb.ifaces := by
        have hx : (info w1').interfaces = w1'.sb.ifaces := rfl
        rw [hx, hsb] at hj
        exact hj
      exact ih3 j hjm
  | cfgStep op w1 tr1 h1 hop ih =>
    obtain ⟨ih1, ih2, ih3⟩ := ih
    obtain ⟨hif, hdevs⟩ := cfgOp_preserves op hop w1
    refine ⟨?_, ?_, ?_⟩
    · show (applyOp op w1).1.sb.ifaces = tr1
      rw [hif]
      exact ih1
    · show "lo" ∈ devNames (applyOp op w1).1.sb.ns
      unfold devNames
      rw [hdevs]
      exact ih2
    · intro j hj
      have hjm : j ∈ w1.sb.ifaces := by
        have hx : (info (applyOp op w1).1).interfaces = (applyOp op w1).1.sb.ifaces := rfl
        rw [hx, hif] at hj
        exact hj
      exact ih3 j hjm

/-- Witness for C10: applied at the initial world of a concrete key and
host. -/
theorem info_lists_added_interfaces_witness :
    (info (initWorld "/var/run/netns/sbx1" [sampleDev])).interfaces = [] ∧
    "lo" ∈ devNames (initWorld "/var/run/netns/sbx1" [sampleDev]).sb.ns ∧
    (∀ i, i ∈ (info (initWorld "/var/run/netns/sbx1" [sampleDev])).interfaces →
      ¬ i.dstName = "lo") :=
  info_lists_added_interfaces "/var/run/netns/sbx1" [sampleDev] _ [] LiveReach.init

/-- The phase of one caller running AddInterface under the per-sandbox
lock. -/
inductive TPhase where
  | idle
  | locked
  | named (nm : String)
  | finished
deriving DecidableEq, Repr

/-- Modelled from the spec (section 5): two concurrent AddInterface callers
on one sandbox, serialized by the per-sandbox exclusion lock; the state
holds the lock owner, each caller's phase, the device names present in the
sandbox namespace, and the resolved names of the appended interfaces. -/
structure LockSys where
  lock : Option (Fin 2)
  phase : Fin 2 → TPhase
  names : List String
  added : List String

/-- The initial state: lock free, both callers idle, only the loopback
device in the namespace. -/
def initLockSys : LockSys :=
  { lock := none, phase := fun _ => TPhase.idle, names := ["lo"], added := [] }

/-- Modelled from the spec (section 5): the interleaved small-step semantics
of the two callers — a caller acquires the free lock, resolves a fresh name
with prefix eth while holding it, and appends the interface and releases the
lock. -/
inductive LockStep : LockSys → LockSys → Prop where
  | acquire (s : LockSys) (t : Fin 2) (hl : s.lock = none)
      (hp : s.phase t = TPhase.idle) :
      LockStep s { s with lock := some t,
                          phase := Function.update s.phase t TPhase.locked }
  | resolveName (s : LockSys) (t : Fin 2) (nm : String) (hl : s.lock = some t)
      (hp : s.phase t = TPhase.locked)
      (hr : resolveDstName s.names "eth" = Except.ok nm) :
      LockStep s { s with phase := Function.update s.phase t (TPhase.named nm) }
  | appendIface (s : LockSys) (t : Fin 2) (nm : String) (hl : s.lock = some t)
      (hp : s.phase t = TPhase.named nm) :
      LockStep s { lock := none, phase := Function.update s.phase t TPhase.finished,
                   names := s.names ++ [nm], added := s.added ++ [nm] }

/-- The states reachable from the initial two-caller state. -/
inductive LockReach : LockSys → Prop where
  | init : LockReach initLockSys
  | step (s s' : LockSys) (h : LockReach s) (hs : LockStep s s') : LockReach s'

/-- The mutual-exclusion invariant: appended names are distinct and present
in the namespace, and a caller that has resolved a name holds the lock and
its name is still fresh. -/
def LockInv (s : LockSys) : Prop :=
  s.added.Nodup ∧ (∀ a ∈ s.added, a ∈ s.names) ∧
  (∀ t nm, s.phase t = TPhase.named nm → s.lock = some t ∧ nm ∉ s.names)

theorem lockStep_inv (s s' : LockSys) (h : LockInv s) (hs : LockStep s s') : LockInv s' := by
  obtain ⟨hnd, hsub, hnamed⟩ := h
  cases hs with
  | acquire t hl hp =>
    refine ⟨hnd, hsub, ?_⟩
    intro t' nm hp'
    dsimp only at hp' ⊢
    by_cases ht : t' = t
    · subst ht
      rw [Function.update_same] at hp'
      cases hp'
    · rw [Function.update_noteq ht] at hp'
      have hlk := (hnamed t' nm hp').1
      rw [hl] at hlk
      cases hlk
  | resolveName t nm hl hp hr =>
    refine ⟨hnd, hsub, ?_⟩
    intro t' nm' hp'
    dsimp only at hp' ⊢
    by_cases ht : t' = t
    · subst ht
      rw [Function.update_same] at hp'
      injection hp' with hnm
      subst hnm
      exact ⟨hl, (resolveDstName_spec s.names "eth" nm hr).1⟩
    · rw [Function.update_noteq ht] at hp'
      have hlk := (hnamed t' nm' hp').1
      rw [hl] at hlk
      injection hlk with heq
      exact absurd heq.symm ht
  | appendIface t nm hl hp =>
    obtain ⟨_, hfresh⟩ := hnamed t nm hp
    have hnotadded : nm ∉ s.added := fun hc => hfresh (hsub nm hc)
    refine ⟨?_, ?_, ?_⟩
    · rw [List.nodup_append]
      refine ⟨hnd, List.nodup_singleton nm, ?_⟩
      intro a ha hb
      simp at hb
      subst hb
      exact hnotadded ha
    · intro a ha
      rcases List.mem_append.mp ha with h1 | h2
      · exact List.mem_append_left [nm] (hsub a h1)
      · simp at h2
        subst h2
        exact List.mem_append_right s.names (by simp)
    · intro t' nm' hp'
      dsimp only at hp' ⊢
      by_cases ht : t' = t
      · subst ht
        rw [Function.update_same] at hp'
        cases hp'
      · rw [Function.update_noteq ht] at hp'
        have hlk := (hnamed t' nm' hp').1
        rw [hl] at hlk
        injection hlk with heq
        exact absurd heq.symm ht

theorem lockReach_inv (s : LockSys) (h : LockReach s) : LockInv s := by
  induction h with
  | init =>
    refine ⟨List.nodup_nil, ?_, ?_⟩
    · intro a ha
      cases ha
    · intro t nm hp
      cases hp
  | step s1 s2 h1 hs ih => exact lockStep_inv s1 s2 ih hs

/-- C9: under every interleaving of two concurrent AddInterface callers with
prefix eth on one lock-protected sandbox, the appended interface names are
pairwise distinct — in particular at most one interface is ever named
eth0. -/
theorem concurrent_addInterface_distinct_names (s : LockSys) (h : LockReach s) :
    s.added.Nodup ∧ s.added.count "eth0" ≤ 1 := by
  have hinv := lockReach_inv s h
  exact ⟨hinv.1, List.nodup_iff_count_le_one.mp hinv.1 "eth0"⟩

/-- State after caller 0 acquires the lock. -/
def ls1 : LockSys :=
  { initLockSys with lock := some 0,
                     phase := Function.update initLockSys.phase 0 TPhase.locked }

/-- State after caller 0 resolves eth0. -/
def ls2 : LockSys :=
  { ls1 with phase := Function.update ls1.phase 0 (TPhase.named "eth0") }

/-- State after caller 0 appends eth0 and releases the lock. -/
def ls3 : LockSys :=
  { lock := none, phase := Function.update ls2.phase 0 TPhase.finished,
    names := ls2.names ++ ["eth0"], added := ls2.added ++ ["eth0"] }

/-- State after caller 1 acquires the lock. -/
def ls4 : LockSys :=
  { ls3 with lock := some 1, phase := Function.update ls3.phase 1 TPhase.locked }

/-- State after caller 1 resolves eth1. -/
def ls5 : LockSys :=
  { ls4 with phase := Function.update ls4.phase 1 (TPhase.named "eth1") }

/-- State after caller 1 appends eth1 and releases the lock. -/
def ls6 : LockSys :=
  { lock := none, phase := Function.update ls5.phase 1 TPhase.finished,
    names := ls5.names ++ ["eth1"], added := ls5.added ++ ["eth1"] }

/-- Witness for C9: a complete two-caller run reaches a state whose two
appended interfaces have distinct names, with eth0 appearing once. -/
theorem concurrent_addInterface_distinct_names_witness :
    ls6.added.Nodup ∧ ls6.added.count "eth0" ≤ 1 := by
  refine concurrent_addInterface_distinct_names ls6 ?_
  refine LockReach.step ls5 ls6 ?_ (LockStep.appendIface ls5 1 "eth1" rfl (by rfl))
  refine LockReach.step ls4 ls5 ?_
    (LockStep.resolveName ls4 1 "eth1" rfl (by rfl) (by rfl))
  refine LockReach.step ls3 ls4 ?_ (LockStep.acquire ls3 1 rfl (by rfl))
  refine LockReach.step ls2 ls3 ?_ (LockStep.appendIface ls2 0 "eth0" rfl (by rfl))
  refine LockReach.step ls1 ls2 ?_
    (LockStep.resolveName ls1 0 "eth0" rfl (by rfl) (by rfl))
  exact LockReach.step initLockSys ls1 LockReach.init
    (LockStep.acquire initLockSys 0 rfl (by rfl))
